import Mathlib

/-!
Shallow embedding of the dynamic-form-builder core: the schema model
(`FieldSchema`, `FormSchema` and the editor operations from `SchemaEditor`)
and the form engine (`validate` and the submit-time coercion from
`DynamicForm`).  Machine numbers are modelled as rationals; JS objects used
only through keyed assignment and lookup are modelled as association lists
where assignment prepends and lookup takes the most recent binding.
-/

/-- The four field types of the schema model (`FieldType` in `types.ts`). -/
inductive FieldType where
  | text
  | number
  | date
  | select
deriving DecidableEq

/-- The two layout choices (`FormLayout` in `types.ts`). -/
inductive FormLayout where
  | singleColumn
  | twoColumn
deriving DecidableEq

/-- One field of a schema (`FieldSchema` in `types.ts`).  Optional keys of
the TypeScript interface become `Option`s. -/
structure FieldSchema where
  id : String
  name : String
  label : String
  type : FieldType
  required : Option Bool
  placeholder : Option String
  min : Option ℚ
  max : Option ℚ
  pattern : Option String
  options : Option (List String)
deriving DecidableEq

/-- A form schema (`FormSchema` in `types.ts`). -/
structure FormSchema where
  id : String
  name : String
  description : Option String
  layout : FormLayout
  fields : List FieldSchema
  createdAt : String
  updatedAt : String
deriving DecidableEq

/-- A JS runtime value as stored in the submitted data record: a string, a
number, or NaN (the result of `Number` on an unparseable string). -/
inductive JsValue where
  | str (s : String)
  | num (q : ℚ)
  | nan
deriving DecidableEq

/-- Lookup in an association list modelling a JS object: the most recent
binding for the key wins. -/
def objGet {α : Type} (k : String) : List (String × α) → Option α
  | [] => none
  | (k', v) :: r => if k' = k then some v else objGet k r

/-- The raw value of a field: `values[field.id] ?? ''`. -/
def getRaw (values : String → Option String) (fieldId : String) : String :=
  (values fieldId).getD ""

/-- Digit list to natural number, most significant first. -/
def digitsToNat (ds : List Char) : ℕ :=
  ds.foldl (fun a c => a * 10 + (c.toNat - 48)) 0

/-- Split a leading run of decimal digits off a character list. -/
def takeDigits (cs : List Char) : List Char × List Char :=
  (cs.takeWhile Char.isDigit, cs.dropWhile Char.isDigit)

/-- Model of the JS `Number(·)` conversion on an already-trimmed string,
restricted to decimal literals: optional sign, integer and/or fractional
digits, optional exponent.  `none` stands for NaN. -/
def jsNumber (s : String) : Option ℚ :=
  let cs := s.toList
  let (sign, cs1) : ℚ × List Char :=
    match cs with
    | '+' :: r => (1, r)
    | '-' :: r => (-1, r)
    | _ => (1, cs)
  let (intPart, rest1) := takeDigits cs1
  let (mantissa, rest2) : Option ℚ × List Char :=
    match rest1 with
    | '.' :: r =>
      let (fracPart, r2) := takeDigits r
      if intPart.isEmpty ∧ fracPart.isEmpty then (none, r2)
      else
        (some ((digitsToNat intPart : ℚ) +
          (digitsToNat fracPart : ℚ) / (10 : ℚ) ^ fracPart.length), r2)
    | _ =>
      if intPart.isEmpty then (none, rest1)
      else (some (digitsToNat intPart : ℚ), rest1)
  match mantissa with
  | none => none
  | some m =>
    match rest2 with
    | [] => some (sign * m)
    | 'e' :: r => jsNumberExp sign m r
    | 'E' :: r => jsNumberExp sign m r
    | _ => none
where
  /-- Parse the exponent tail after `e`/`E`. -/
  jsNumberExp (sign m : ℚ) (r : List Char) : Option ℚ :=
    let (esign, r1) : ℤ × List Char :=
      match r with
      | '+' :: r2 => (1, r2)
      | '-' :: r2 => (-1, r2)
      | _ => (1, r)
    let (ed, r2) := takeDigits r1
    if ed.isEmpty ∨ ¬ r2.isEmpty then none
    else some (sign * m * (10 : ℚ) ^ (esign * (digitsToNat ed : ℤ)))

/-- JS rendering of a number inside a template string; integers print with
no decimal point, which is the only case the validation messages exercise. -/
def jsNumToString (q : ℚ) : String :=
  if q.den = 1 then toString q.num else toString q

/-- Model of JS `String.prototype.trim`: drop leading and trailing
whitespace, implemented over the character list so that the kernel can
evaluate it on concrete strings. -/
def jsTrim (s : String) : String :=
  String.mk (((s.toList.dropWhile Char.isWhitespace).reverse.dropWhile
    Char.isWhitespace).reverse)

/-- The body of the `validate` loop in `DynamicForm.tsx` for one field:
the error recorded for the field, if any.  `compile` stands for the JS
regular-expression engine: `compile p` is `none` when `new RegExp(p)`
throws, and otherwise gives the `test` predicate of the compiled regex. -/
def fieldError (compile : String → Option (String → Bool))
    (field : FieldSchema) (rawValue : String) : Option String :=
  let trimmed := jsTrim rawValue
  if field.required.getD false ∧ trimmed = "" then
    some "This field is required"
  else if trimmed = "" then
    none
  else if field.type = FieldType.number then
    match jsNumber trimmed with
    | none => some "Must be a valid number"
    | some num =>
      let maxCheck : Option String :=
        match field.max with
        | some mx => if num > mx then some ("Must be ≤ " ++ jsNumToString mx) else none
        | none => none
      match field.min with
      | some mn =>
        if num < mn then some ("Must be ≥ " ++ jsNumToString mn) else maxCheck
      | none => maxCheck
  else if field.type = FieldType.text then
    match field.pattern with
    | none => none
    | some p =>
      if p = "" then none
      else
        match compile p with
        | none => none
        | some test => if test trimmed then none else some "Value does not match required format"
  else none

/-- One iteration of the `validate` loop: record the field's error, if any,
under the field's id. -/
def validateStep (compile : String → Option (String → Bool))
    (values : String → Option String) (errs : List (String × String))
    (f : FieldSchema) : List (String × String) :=
  match fieldError compile f (getRaw values f.id) with
  | some msg => (f.id, msg) :: errs
  | none => errs

/-- The `validate` function of `DynamicForm.tsx`: walk the fields in schema
order and record each field's error, if any, under the field's id. -/
def validate (compile : String → Option (String → Bool))
    (schema : FormSchema) (values : String → Option String) :
    List (String × String) :=
  schema.fields.foldl (validateStep compile values) []

/-- The per-field coercion step of `handleSubmit` in `DynamicForm.tsx`:
`Number(raw)` when the field is a number field with non-blank input (JS
`Number` itself discards surrounding whitespace), otherwise the raw string
unchanged. -/
def coerceField (field : FieldSchema) (raw : String) : JsValue :=
  if field.type = FieldType.number ∧ jsTrim raw ≠ "" then
    match jsNumber (jsTrim raw) with
    | some q => JsValue.num q
    | none => JsValue.nan
  else JsValue.str raw

/-- One iteration of the submit-time coercion loop: write the coerced value
under the field's name. -/
def coerceStep (values : String → Option String)
    (data : List (String × JsValue)) (f : FieldSchema) :
    List (String × JsValue) :=
  (f.name, coerceField f (getRaw values f.id)) :: data

/-- The record built by `handleSubmit` after a successful validation: for
each field in schema order, write the coerced value under the field's name. -/
def coerce (schema : FormSchema) (values : String → Option String) :
    List (String × JsValue) :=
  schema.fields.foldl (coerceStep values) []

/-- The submit handler: validate, and produce the coerced record only when
the error map is empty. -/
def handleSubmit (compile : String → Option (String → Bool))
    (schema : FormSchema) (values : String → Option String) :
    Option (List (String × JsValue)) :=
  if validate compile schema values = [] then some (coerce schema values)
  else none

/-- A `Partial<FieldSchema>` patch.  For a mandatory key, `some v` means the
key is present with value `v`; for an optional key, `some none` means the
key is present holding `undefined` (as `handleTypeChange` writes into
`options`), and `some (some v)` means it is present with value `v`. -/
structure FieldPatch where
  id : Option String := none
  name : Option String := none
  label : Option String := none
  type : Option FieldType := none
  required : Option (Option Bool) := none
  placeholder : Option (Option String) := none
  min : Option (Option ℚ) := none
  max : Option (Option ℚ) := none
  pattern : Option (Option String) := none
  options : Option (Option (List String)) := none
deriving DecidableEq

/-- The spread `{ ...f, ...patch }` applied to a field. -/
def applyFieldPatch (f : FieldSchema) (p : FieldPatch) : FieldSchema :=
  { id := p.id.getD f.id
    name := p.name.getD f.name
    label := p.label.getD f.label
    type := p.type.getD f.type
    required := p.required.getD f.required
    placeholder := p.placeholder.getD f.placeholder
    min := p.min.getD f.min
    max := p.max.getD f.max
    pattern := p.pattern.getD f.pattern
    options := p.options.getD f.options }

/-- A `Partial<FormSchema>` patch as passed to `updateSchema`. -/
structure SchemaPatch where
  id : Option String := none
  name : Option String := none
  description : Option (Option String) := none
  layout : Option FormLayout := none
  fields : Option (List FieldSchema) := none
  createdAt : Option String := none
  updatedAt : Option String := none
deriving DecidableEq

/-- `updateSchema` from `SchemaEditor`: spread the patch over the schema and
then overwrite `updatedAt` with the current clock value `now`. -/
def updateSchema (schema : FormSchema) (patch : SchemaPatch) (now : String) :
    FormSchema :=
  { id := patch.id.getD schema.id
    name := patch.name.getD schema.name
    description := patch.description.getD schema.description
    layout := patch.layout.getD schema.layout
    fields := patch.fields.getD schema.fields
    createdAt := patch.createdAt.getD schema.createdAt
    updatedAt := now }

/-- `updateField` from `SchemaEditor`: patch the field with the matching id,
leave every other field alone, and route through `updateSchema`. -/
def updateField (schema : FormSchema) (now : String) (fieldId : String)
    (patch : FieldPatch) : FormSchema :=
  updateSchema schema
    { fields := some (schema.fields.map
        (fun f => if f.id = fieldId then applyFieldPatch f patch else f)) }
    now

/-- `addField` from `SchemaEditor`: append a fresh default field whose id is
supplied by the identifier generator. -/
def addField (schema : FormSchema) (now : String) (newId : String) :
    FormSchema :=
  let index := schema.fields.length + 1
  let newField : FieldSchema :=
    { id := newId
      name := "field_" ++ toString index
      label := "Field " ++ toString index
      type := FieldType.text
      required := some false
      placeholder := some ""
      min := none
      max := none
      pattern := none
      options := none }
  updateSchema schema { fields := some (schema.fields ++ [newField]) } now

/-- `removeField` from `SchemaEditor`. -/
def removeField (schema : FormSchema) (now : String) (fieldId : String) :
    FormSchema :=
  updateSchema schema
    { fields := some (schema.fields.filter (fun f => f.id ≠ fieldId)) } now

/-- The form-name editor handler: `updateSchema({ name: v })`. -/
def updateSchemaName (schema : FormSchema) (now : String) (v : String) : FormSchema :=
  updateSchema schema { name := some v } now

/-- The description editor handler: `updateSchema({ description: v })`. -/
def updateDescription (schema : FormSchema) (now : String) (v : String) :
    FormSchema :=
  updateSchema schema { description := some (some v) } now

/-- `handleLayoutChange` from `SchemaEditor`. -/
def setLayout (schema : FormSchema) (now : String) (l : FormLayout) :
    FormSchema :=
  updateSchema schema { layout := some l } now

/-- `handleTypeChange` from `FieldEditorRow`: the patch it builds sets the
new type and, when the new type is not `select`, explicitly writes
`options: undefined`. -/
def handleTypeChange (newType : FieldType) : FieldPatch :=
  { type := some newType
    options := if newType = FieldType.select then none else some none }

/-! ### Lookup lemmas for the validation and coercion folds -/

theorem objGet_cons {α : Type} (k k' : String) (v : α) (r : List (String × α)) :
    objGet k ((k', v) :: r) = if k' = k then some v else objGet k r := rfl

theorem objGet_validateFold_not_mem
    (compile : String → Option (String → Bool)) (values : String → Option String)
    (L : List FieldSchema) (e : List (String × String)) (i : String)
    (h : ∀ g ∈ L, g.id ≠ i) :
    objGet i (L.foldl (validateStep compile values) e) = objGet i e := by
  induction L generalizing e with
  | nil => rfl
  | cons g L ih =>
    simp only [List.foldl_cons]
    rw [ih _ (fun x hx => h x (List.mem_cons_of_mem _ hx))]
    have hg : g.id ≠ i := h g (List.mem_cons_self _ _)
    unfold validateStep
    cases fieldError compile g (getRaw values g.id) with
    | none => rfl
    | some m => simp [objGet, hg]

theorem objGet_validateFold_unique
    (compile : String → Option (String → Bool)) (values : String → Option String)
    (L : List FieldSchema) (e : List (String × String)) (f : FieldSchema)
    (h : L.filter (fun g => g.id == f.id) = [f]) :
    objGet f.id (L.foldl (validateStep compile values) e) =
      match fieldError compile f (getRaw values f.id) with
      | some m => some m
      | none => objGet f.id e := by
  induction L generalizing e with
  | nil => simp at h
  | cons g L ih =>
    simp only [List.foldl_cons]
    by_cases hg : g.id = f.id
    · rw [List.filter_cons_of_pos (by simp [hg])] at h
      obtain ⟨hgf, hLnil⟩ := List.cons_eq_cons.mp h
      have hnone : ∀ x ∈ L, x.id ≠ f.id := by
        intro x hx
        have := List.filter_eq_nil_iff.mp hLnil x hx
        simpa using this
      rw [objGet_validateFold_not_mem compile values L _ _ hnone]
      subst hgf
      unfold validateStep
      cases fieldError compile g (getRaw values g.id) with
      | none => rfl
      | some m => simp [objGet]
    · rw [List.filter_cons_of_neg (by simp [hg])] at h
      rw [ih _ h]
      have hstep : objGet f.id (validateStep compile values e g) = objGet f.id e := by
        unfold validateStep
        cases fieldError compile g (getRaw values g.id) with
        | none => rfl
        | some m => simp [objGet, hg]
      rw [hstep]

theorem objGet_validate_unique
    (compile : String → Option (String → Bool)) (schema : FormSchema)
    (values : String → Option String) (f : FieldSchema)
    (h : schema.fields.filter (fun g => g.id == f.id) = [f]) :
    objGet f.id (validate compile schema values) =
      fieldError compile f (getRaw values f.id) := by
  unfold validate
  rw [objGet_validateFold_unique compile values _ [] f h]
  cases fieldError compile f (getRaw values f.id) <;> rfl

theorem objGet_coerceFold (values : String → Option String)
    (L : List FieldSchema) (e : List (String × JsValue)) (nm : String) :
    objGet nm (L.foldl (coerceStep values) e) =
      match (L.filter (fun g => g.name == nm)).getLast? with
      | some f => some (coerceField f (getRaw values f.id))
      | none => objGet nm e := by
  induction L generalizing e with
  | nil => rfl
  | cons g L ih =>
    simp only [List.foldl_cons]
    rw [ih]
    by_cases hg : g.name = nm
    · rw [List.filter_cons_of_pos (by simp [hg])]
      cases hfl : L.filter (fun x => x.name == nm) with
      | nil =>
        simp [coerceStep, objGet, hg]
      | cons p t =>
        rw [List.getLast?_cons_cons]
        cases h2 : (p :: t).getLast? with
        | none => simp at h2
        | some q => rfl
    · rw [List.filter_cons_of_neg (by simp [hg])]
      have hstep : objGet nm (coerceStep values e g) = objGet nm e := by
        simp [coerceStep, objGet, hg]
      rw [hstep]

theorem validateFold_eq_nil
    (compile : String → Option (String → Bool)) (values : String → Option String)
    (L : List FieldSchema) (e : List (String × String))
    (h : L.foldl (validateStep compile values) e = []) :
    e = [] ∧ ∀ g ∈ L, fieldError compile g (getRaw values g.id) = none := by
  induction L generalizing e with
  | nil => exact ⟨h, by simp⟩
  | cons g L ih =>
    simp only [List.foldl_cons] at h
    obtain ⟨h1, h2⟩ := ih _ h
    cases hfe : fieldError compile g (getRaw values g.id) with
    | some m =>
      unfold validateStep at h1
      rw [hfe] at h1
      exact absurd h1 (by simp)
    | none =>
      unfold validateStep at h1
      rw [hfe] at h1
      refine ⟨h1, fun x hx => ?_⟩
      rcases List.mem_cons.mp hx with hx | hx
      · subst hx; exact hfe
      · exact h2 x hx

theorem validate_eq_nil_iff
    (compile : String → Option (String → Bool)) (schema : FormSchema)
    (values : String → Option String)
    (h : validate compile schema values = []) :
    ∀ g ∈ schema.fields, fieldError compile g (getRaw values g.id) = none :=
  (validateFold_eq_nil compile values schema.fields [] h).2

/-! ### Claim theorems -/

/-- C1: for a field of type `number` whose trimmed raw input is non-empty,
`validate` reports "Must be a valid number" when parsing fails; otherwise
"Must be ≥ min" when `min` is set and the value is below it; otherwise
"Must be ≤ max" when `max` is set and the value is above it; otherwise no
error — the checks run in exactly that order and stop at the first failure,
so the field gets at most one error. -/
theorem number_field_check_order
    (compile : String → Option (String → Bool)) (schema : FormSchema)
    (values : String → Option String) (f : FieldSchema)
    (huniq : schema.fields.filter (fun g => g.id == f.id) = [f])
    (htype : f.type = FieldType.number)
    (hne : jsTrim (getRaw values f.id) ≠ "") :
    objGet f.id (validate compile schema values) =
      match jsNumber (jsTrim (getRaw values f.id)) with
      | none => some "Must be a valid number"
      | some num =>
        match f.min with
        | some mn =>
          if num < mn then some ("Must be ≥ " ++ jsNumToString mn)
          else
            match f.max with
            | some mx => if num > mx then some ("Must be ≤ " ++ jsNumToString mx) else none
            | none => none
        | none =>
          match f.max with
          | some mx => if num > mx then some ("Must be ≤ " ++ jsNumToString mx) else none
          | none => none := by
  rw [objGet_validate_unique compile schema values f huniq]
  have h1 : ¬ (f.required.getD false ∧ jsTrim (getRaw values f.id) = "") :=
    fun h => hne h.2
  simp only [fieldError, if_neg h1, if_neg hne, if_pos htype]

/-- Concrete number field used by the C1 witness. -/
def c1Field : FieldSchema :=
  { id := "f1", name := "age", label := "Age", type := FieldType.number,
    required := some true, placeholder := none, min := some 10,
    max := none, pattern := none, options := none }

/-- Concrete schema used by the C1 witness. -/
def c1Schema : FormSchema :=
  { id := "s1", name := "Form", description := none,
    layout := FormLayout.singleColumn, fields := [c1Field],
    createdAt := "t0", updatedAt := "t0" }

/-- Concrete raw-input state used by the C1 witness. -/
def c1Values : String → Option String :=
  fun i => if i = "f1" then some "5" else none

/-- C1 witness: on the concrete schema with one number field (`min = 10`)
and raw input "5", the hypotheses hold and validation reports the min
violation. -/
theorem number_field_check_order_witness :
    (c1Schema.fields.filter (fun g => g.id == c1Field.id) = [c1Field]) ∧
    c1Field.type = FieldType.number ∧
    jsTrim (getRaw c1Values c1Field.id) ≠ "" ∧
    objGet c1Field.id (validate (fun _ => none) c1Schema c1Values) =
      some "Must be ≥ 10" := by
  refine ⟨by decide, rfl, by decide, ?_⟩
  rw [number_field_check_order (fun _ => none) c1Schema c1Values c1Field
    (by decide) rfl (by decide)]
  with_unfolding_all rfl

/-- C2: when the trimmed raw input of a field is empty, `validate` reports
exactly "This field is required" when the field is required and no error
when it is not, and in both cases no further check runs for that field. -/
theorem required_empty_rule
    (compile : String → Option (String → Bool)) (schema : FormSchema)
    (values : String → Option String) (f : FieldSchema)
    (huniq : schema.fields.filter (fun g => g.id == f.id) = [f])
    (hempty : jsTrim (getRaw values f.id) = "") :
    objGet f.id (validate compile schema values) =
      if f.required.getD false then some "This field is required" else none := by
  rw [objGet_validate_unique compile schema values f huniq]
  by_cases hr : f.required.getD false = true
  · simp [fieldError, hempty, hr]
  · simp [fieldError, hempty, hr]

/-- Concrete required field used by the C2 witness. -/
def c2Field : FieldSchema :=
  { id := "f2", name := "nick", label := "Nickname", type := FieldType.text,
    required := some true, placeholder := none, min := none, max := none,
    pattern := none, options := none }

/-- Concrete schema used by the C2 witness. -/
def c2Schema : FormSchema :=
  { id := "s2", name := "Form", description := none,
    layout := FormLayout.singleColumn, fields := [c2Field],
    createdAt := "t0", updatedAt := "t0" }

/-- C2 witness: a required field with absent raw input gets exactly the
required-field error. -/
theorem required_empty_rule_witness :
    (c2Schema.fields.filter (fun g => g.id == c2Field.id) = [c2Field]) ∧
    jsTrim (getRaw (fun _ => none) c2Field.id) = "" ∧
    objGet c2Field.id (validate (fun _ => none) c2Schema (fun _ => none)) =
      some "This field is required" := by
  refine ⟨by decide, by decide, ?_⟩
  rw [required_empty_rule (fun _ => none) c2Schema (fun _ => none) c2Field
    (by decide) (by decide)]
  rfl

/-- C3: for a text field with a set (non-empty) pattern and non-empty
trimmed input, `validate` is fail-open on a pattern that does not compile
(no error, no exception), reports "Value does not match required format"
when the compiled pattern rejects the trimmed value, and no error when it
accepts it. -/
theorem pattern_fail_open
    (compile : String → Option (String → Bool)) (schema : FormSchema)
    (values : String → Option String) (f : FieldSchema) (p : String)
    (huniq : schema.fields.filter (fun g => g.id == f.id) = [f])
    (htype : f.type = FieldType.text)
    (hpat : f.pattern = some p) (hpne : p ≠ "")
    (hne : jsTrim (getRaw values f.id) ≠ "") :
    objGet f.id (validate compile schema values) =
      match compile p with
      | none => none
      | some test =>
        if test (jsTrim (getRaw values f.id)) then none
        else some "Value does not match required format" := by
  rw [objGet_validate_unique compile schema values f huniq]
  have h1 : ¬ (f.required.getD false ∧ jsTrim (getRaw values f.id) = "") :=
    fun h => hne h.2
  simp [fieldError, if_neg h1, if_neg hne, htype, hpat, hpne]

/-- Concrete text field with a pattern, used by the C3 witness. -/
def c3Field : FieldSchema :=
  { id := "f3", name := "code", label := "Code", type := FieldType.text,
    required := some false, placeholder := none, min := none, max := none,
    pattern := some "^[A-Za-z]+$", options := none }

/-- Concrete schema used by the C3 witness. -/
def c3Schema : FormSchema :=
  { id := "s3", name := "Form", description := none,
    layout := FormLayout.singleColumn, fields := [c3Field],
    createdAt := "t0", updatedAt := "t0" }

/-- Concrete raw-input state used by the C3 witness. -/
def c3Values : String → Option String :=
  fun i => if i = "f3" then some "abc123" else none

/-- Concrete regex engine used by the C3 witness: the one pattern compiles
to a test accepting exactly "abc". -/
def c3Compile : String → Option (String → Bool) :=
  fun q => if q = "^[A-Za-z]+$" then some (fun s => s == "abc") else none

/-- C3 witness: the compiled pattern rejects "abc123", so validation reports
the format error. -/
theorem pattern_fail_open_witness :
    (c3Schema.fields.filter (fun g => g.id == c3Field.id) = [c3Field]) ∧
    c3Field.type = FieldType.text ∧
    c3Field.pattern = some "^[A-Za-z]+$" ∧
    ("^[A-Za-z]+$" : String) ≠ "" ∧
    jsTrim (getRaw c3Values c3Field.id) ≠ "" ∧
    objGet c3Field.id (validate c3Compile c3Schema c3Values) =
      some "Value does not match required format" := by
  refine ⟨by decide, rfl, rfl, by decide, by decide, ?_⟩
  rw [pattern_fail_open c3Compile c3Schema c3Values c3Field "^[A-Za-z]+$"
    (by decide) rfl rfl (by decide) (by decide)]
  rfl

/-- C6: a field of type `select` or `date` whose trimmed raw input is
non-empty never gets an error from `validate`, whatever string was
submitted — in particular a value outside a select field's options list is
accepted. -/
theorem select_date_no_constraint
    (compile : String → Option (String → Bool)) (schema : FormSchema)
    (values : String → Option String) (f : FieldSchema)
    (huniq : schema.fields.filter (fun g => g.id == f.id) = [f])
    (htype : f.type = FieldType.select ∨ f.type = FieldType.date)
    (hne : jsTrim (getRaw values f.id) ≠ "") :
    objGet f.id (validate compile schema values) = none := by
  rw [objGet_validate_unique compile schema values f huniq]
  have h1 : ¬ (f.required.getD false ∧ jsTrim (getRaw values f.id) = "") :=
    fun h => hne h.2
  rcases htype with htype | htype <;>
    simp [fieldError, if_neg h1, if_neg hne, htype]

/-- Concrete select field used by the C6 witness. -/
def c6Field : FieldSchema :=
  { id := "f6", name := "color", label := "Color", type := FieldType.select,
    required := some true, placeholder := none, min := none, max := none,
    pattern := none, options := some ["A", "B"] }

/-- Concrete schema used by the C6 witness. -/
def c6Schema : FormSchema :=
  { id := "s6", name := "Form", description := none,
    layout := FormLayout.singleColumn, fields := [c6Field],
    createdAt := "t0", updatedAt := "t0" }

/-- Concrete raw-input state for the C6 witness: a value not among the
field's options. -/
def c6Values : String → Option String :=
  fun i => if i = "f6" then some "Z" else none

/-- C6 witness: the select field with options ["A","B"] accepts the
submitted value "Z" that is not among them. -/
theorem select_date_no_constraint_witness :
    (c6Schema.fields.filter (fun g => g.id == c6Field.id) = [c6Field]) ∧
    (c6Field.type = FieldType.select ∨ c6Field.type = FieldType.date) ∧
    jsTrim (getRaw c6Values c6Field.id) ≠ "" ∧
    objGet c6Field.id (validate (fun _ => none) c6Schema c6Values) = none := by
  refine ⟨by decide, Or.inl rfl, by decide, ?_⟩
  exact select_date_no_constraint (fun _ => none) c6Schema c6Values c6Field
    (by decide) (Or.inl rfl) (by decide)

/-- The coerced record's lookup at any name is the coerced value of the
last field in schema order bearing that name, and is absent when no field
bears it. -/
theorem objGet_coerce (schema : FormSchema) (values : String → Option String)
    (nm : String) :
    objGet nm (coerce schema values) =
      match (schema.fields.filter (fun g => g.name == nm)).getLast? with
      | some f => some (coerceField f (getRaw values f.id))
      | none => none := by
  unfold coerce
  rw [objGet_coerceFold]
  cases (schema.fields.filter (fun g => g.name == nm)).getLast? <;> rfl

/-- C5: when validation succeeds, the submitted record holds, under each
field's name, the parsed number when the field has type `number` and a
non-empty trimmed raw value (and such a parse cannot fail), and otherwise
the raw string exactly as typed, untrimmed. -/
theorem coerce_writes_values
    (compile : String → Option (String → Bool)) (schema : FormSchema)
    (values : String → Option String) (f : FieldSchema)
    (hok : validate compile schema values = [])
    (huniq : schema.fields.filter (fun g => g.name == f.name) = [f]) :
    objGet f.name (coerce schema values) =
      some (coerceField f (getRaw values f.id))
    ∧ (f.type = FieldType.number ∧ jsTrim (getRaw values f.id) ≠ "" →
        ∃ v, jsNumber (jsTrim (getRaw values f.id)) = some v ∧
          coerceField f (getRaw values f.id) = JsValue.num v)
    ∧ (¬ (f.type = FieldType.number ∧ jsTrim (getRaw values f.id) ≠ "") →
        coerceField f (getRaw values f.id) = JsValue.str (getRaw values f.id)) := by
  have hmem : f ∈ schema.fields := by
    have : f ∈ schema.fields.filter (fun g => g.name == f.name) := by
      rw [huniq]; exact List.mem_singleton_self f
    exact List.mem_of_mem_filter this
  refine ⟨?_, ?_, ?_⟩
  · rw [objGet_coerce, huniq]
    rfl
  · rintro ⟨htype, hne⟩
    have hfe := validate_eq_nil_iff compile schema values hok f hmem
    have h1 : ¬ (f.required.getD false ∧ jsTrim (getRaw values f.id) = "") :=
      fun h => hne h.2
    simp only [fieldError, if_neg h1, if_neg hne, if_pos htype] at hfe
    cases hj : jsNumber (jsTrim (getRaw values f.id)) with
    | none => rw [hj] at hfe; exact absurd hfe (by simp)
    | some v =>
      refine ⟨v, rfl, ?_⟩
      simp [coerceField, htype, hne, hj]
  · intro h
    simp [coerceField, h]

/-- Concrete required number field (min 0, max 120) used by the C5 witness. -/
def c5Field : FieldSchema :=
  { id := "f5", name := "age", label := "Age", type := FieldType.number,
    required := some true, placeholder := none, min := some 0,
    max := some 120, pattern := none, options := none }

/-- Concrete schema used by the C5 witness. -/
def c5Schema : FormSchema :=
  { id := "s5", name := "Form", description := none,
    layout := FormLayout.singleColumn, fields := [c5Field],
    createdAt := "t0", updatedAt := "t0" }

/-- Concrete raw-input state used by the C5 witness: the number input is
surrounded by incidental whitespace. -/
def c5Values : String → Option String :=
  fun i => if i = "f5" then some " 45 " else none

/-- C5 witness: the end-to-end example — the required number field with
input " 45 " validates cleanly and the record holds the number 45. -/
theorem coerce_writes_values_witness :
    validate (fun _ => none) c5Schema c5Values = [] ∧
    (c5Schema.fields.filter (fun g => g.name == c5Field.name) = [c5Field]) ∧
    objGet c5Field.name (coerce c5Schema c5Values) = some (JsValue.num 45) := by
  refine ⟨by with_unfolding_all rfl, by decide, ?_⟩
  have h := coerce_writes_values (fun _ => none) c5Schema c5Values c5Field
    (by with_unfolding_all rfl) (by decide)
  rw [h.1]
  with_unfolding_all rfl

/-- C7: when two or more fields share a name, the coerced record maps that
name to the coerced value of the last such field in schema order — defined
behavior, not an error. -/
theorem duplicate_names_last_wins
    (schema : FormSchema) (values : String → Option String)
    (nm : String) (f : FieldSchema)
    (hdup : 2 ≤ (schema.fields.filter (fun g => g.name == nm)).length)
    (hlast : (schema.fields.filter (fun g => g.name == nm)).getLast? = some f) :
    objGet nm (coerce schema values) =
      some (coerceField f (getRaw values f.id)) := by
  rw [objGet_coerce, hlast]

/-- First of the two name-sharing fields used by the C7 witness. -/
def c7FieldA : FieldSchema :=
  { id := "fa", name := "dup", label := "A", type := FieldType.text,
    required := none, placeholder := none, min := none, max := none,
    pattern := none, options := none }

/-- Second (last) of the two name-sharing fields used by the C7 witness. -/
def c7FieldB : FieldSchema :=
  { id := "fb", name := "dup", label := "B", type := FieldType.text,
    required := none, placeholder := none, min := none, max := none,
    pattern := none, options := none }

/-- Concrete schema with a duplicated field name, used by the C7 witness. -/
def c7Schema : FormSchema :=
  { id := "s7", name := "Form", description := none,
    layout := FormLayout.singleColumn, fields := [c7FieldA, c7FieldB],
    createdAt := "t0", updatedAt := "t0" }

/-- Concrete raw-input state used by the C7 witness. -/
def c7Values : String → Option String :=
  fun i => if i = "fa" then some "first" else if i = "fb" then some "second" else none

/-- C7 witness: with two fields named "dup", the record holds the second
field's value. -/
theorem duplicate_names_last_wins_witness :
    2 ≤ (c7Schema.fields.filter (fun g => g.name == "dup")).length ∧
    (c7Schema.fields.filter (fun g => g.name == "dup")).getLast? = some c7FieldB ∧
    objGet "dup" (coerce c7Schema c7Values) = some (JsValue.str "second") := by
  refine ⟨by decide, by decide, ?_⟩
  rw [duplicate_names_last_wins c7Schema c7Values "dup" c7FieldB
    (by decide) (by decide)]
  decide

/-- C10: the coerced record contains an entry for every field's name; in
particular a field whose raw input is absent or empty (number or not)
appears with the empty string as its value, never omitted. -/
theorem coerce_record_total
    (schema : FormSchema) (values : String → Option String) (f : FieldSchema)
    (hmem : f ∈ schema.fields) :
    (objGet f.name (coerce schema values)).isSome = true
    ∧ (schema.fields.filter (fun g => g.name == f.name) = [f] →
        getRaw values f.id = "" →
        objGet f.name (coerce schema values) = some (JsValue.str "")) := by
  constructor
  · rw [objGet_coerce]
    have hin : f ∈ schema.fields.filter (fun g => g.name == f.name) :=
      List.mem_filter.mpr ⟨hmem, by simp⟩
    cases hl : (schema.fields.filter (fun g => g.name == f.name)).getLast? with
    | none =>
      rw [List.getLast?_eq_none_iff] at hl
      rw [hl] at hin
      exact absurd hin (List.not_mem_nil f)
    | some g => rfl
  · intro huniq hraw
    rw [objGet_coerce, huniq]
    show some (coerceField f (getRaw values f.id)) = some (JsValue.str "")
    rw [hraw]
    have hjt : jsTrim "" = "" := by decide
    simp [coerceField, hjt]

/-- Concrete optional number field used by the C10 witness. -/
def c10Field : FieldSchema :=
  { id := "f10", name := "score", label := "Score", type := FieldType.number,
    required := some false, placeholder := none, min := none, max := none,
    pattern := none, options := none }

/-- Concrete schema used by the C10 witness. -/
def c10Schema : FormSchema :=
  { id := "s10", name := "Form", description := none,
    layout := FormLayout.singleColumn, fields := [c10Field],
    createdAt := "t0", updatedAt := "t0" }

/-- C10 witness: an optional number field with absent raw input still
appears in the record, holding the empty string. -/
theorem coerce_record_total_witness :
    c10Field ∈ c10Schema.fields ∧
    (c10Schema.fields.filter (fun g => g.name == c10Field.name) = [c10Field]) ∧
    getRaw (fun _ => none) c10Field.id = "" ∧
    objGet c10Field.name (coerce c10Schema (fun _ => none)) =
      some (JsValue.str "") := by
    refine ⟨by decide, by decide, by decide, ?_⟩
    exact (coerce_record_total c10Schema (fun _ => none) c10Field (by decide)).2
      (by decide) (by decide)

/-- Concrete select field with options, used by the C4 counterexample and
witness. -/
def c4Field : FieldSchema :=
  { id := "f4", name := "choice", label := "Choice", type := FieldType.select,
    required := none, placeholder := none, min := none, max := none,
    pattern := none, options := some ["A", "B"] }

/-- Concrete schema used by the C4 counterexample and witness. -/
def c4Schema : FormSchema :=
  { id := "s4", name := "Form", description := none,
    layout := FormLayout.singleColumn, fields := [c4Field],
    createdAt := "t0", updatedAt := "t0" }

/-- C4 counterexample: `updateField` applies its patch verbatim, so a patch
that only changes the type to `number` — without the `options: undefined`
entry that `handleTypeChange` adds — leaves the stale options in place. -/
theorem updateField_bare_type_patch_keeps_options :
    ((updateField c4Schema "t1" "f4" { type := some FieldType.number }).fields.map
      (fun f => (f.type, f.options))) =
      [(FieldType.number, some ["A", "B"])] := by decide

/-- C4 (amended): a type change performed through `handleTypeChange` — whose
patch writes `options: undefined` whenever the new type is not `select` —
does clear the field's options, and they stay cleared when the type is
changed back to `select` (that patch leaves `options` untouched). -/
theorem updateField_handleTypeChange_clears_options
    (schema : FormSchema) (now now2 fieldId : String) (t : FieldType)
    (ht : t ≠ FieldType.select) :
    (∀ f ∈ (updateField schema now fieldId (handleTypeChange t)).fields,
        f.id = fieldId → f.options = none)
    ∧ (∀ f ∈ (updateField (updateField schema now fieldId (handleTypeChange t))
          now2 fieldId (handleTypeChange FieldType.select)).fields,
        f.id = fieldId → f.options = none) := by
  have hopt : (handleTypeChange t).options = some none := by
    simp [handleTypeChange, ht]
  constructor
  · intro f hf hid
    have hf' : f ∈ schema.fields.map
        (fun x => if x.id = fieldId then applyFieldPatch x (handleTypeChange t) else x) := hf
    obtain ⟨x, hx, rfl⟩ := List.mem_map.mp hf'
    by_cases hxid : x.id = fieldId
    · simp [hxid, applyFieldPatch, hopt]
    · rw [if_neg hxid] at hid
      exact absurd hid hxid
  · intro f hf hid
    have hf' : f ∈ (schema.fields.map
        (fun x => if x.id = fieldId then applyFieldPatch x (handleTypeChange t) else x)).map
        (fun y => if y.id = fieldId then applyFieldPatch y (handleTypeChange FieldType.select) else y) := hf
    obtain ⟨y, hy, rfl⟩ := List.mem_map.mp hf'
    obtain ⟨x, hx, rfl⟩ := List.mem_map.mp hy
    by_cases hxid : x.id = fieldId
    · simp only [if_pos hxid]
      simp [applyFieldPatch, handleTypeChange, hxid, ht]
    · simp only [if_neg hxid] at hid
      exact absurd hid hxid

/-- C4 witness: on the concrete select field with options ["A","B"],
changing the type to `number` through `handleTypeChange` and then back to
`select` leaves the options cleared. -/
theorem updateField_handleTypeChange_clears_options_witness :
    FieldType.number ≠ FieldType.select ∧
    ((∀ f ∈ (updateField c4Schema "t1" "f4" (handleTypeChange FieldType.number)).fields,
        f.id = "f4" → f.options = none)
    ∧ (∀ f ∈ (updateField (updateField c4Schema "t1" "f4" (handleTypeChange FieldType.number))
          "t2" "f4" (handleTypeChange FieldType.select)).fields,
        f.id = "f4" → f.options = none)) :=
  ⟨by decide,
    updateField_handleTypeChange_clears_options c4Schema "t1" "t2" "f4"
      FieldType.number (by decide)⟩

/-- C8: every mutating schema operation — renaming, redescribing, changing
layout, adding, updating or removing a field — stamps `updatedAt` with the
current clock value while leaving `id` and `createdAt` unchanged. -/
theorem mutating_ops_refresh_updatedAt
    (schema : FormSchema) (now v d fieldId newId : String) (l : FormLayout)
    (patch : FieldPatch) :
    ((updateSchemaName schema now v).updatedAt = now ∧
      (updateSchemaName schema now v).id = schema.id ∧
      (updateSchemaName schema now v).createdAt = schema.createdAt)
    ∧ ((updateDescription schema now d).updatedAt = now ∧
      (updateDescription schema now d).id = schema.id ∧
      (updateDescription schema now d).createdAt = schema.createdAt)
    ∧ ((setLayout schema now l).updatedAt = now ∧
      (setLayout schema now l).id = schema.id ∧
      (setLayout schema now l).createdAt = schema.createdAt)
    ∧ ((addField schema now newId).updatedAt = now ∧
      (addField schema now newId).id = schema.id ∧
      (addField schema now newId).createdAt = schema.createdAt)
    ∧ ((updateField schema now fieldId patch).updatedAt = now ∧
      (updateField schema now fieldId patch).id = schema.id ∧
      (updateField schema now fieldId patch).createdAt = schema.createdAt)
    ∧ ((removeField schema now fieldId).updatedAt = now ∧
      (removeField schema now fieldId).id = schema.id ∧
      (removeField schema now fieldId).createdAt = schema.createdAt) :=
  ⟨⟨rfl, rfl, rfl⟩, ⟨rfl, rfl, rfl⟩, ⟨rfl, rfl, rfl⟩,
    ⟨rfl, rfl, rfl⟩, ⟨rfl, rfl, rfl⟩, ⟨rfl, rfl, rfl⟩⟩

/-- C9: `updateField` with an id that matches no field leaves the fields
list identical, raises no error, and still refreshes `updatedAt` while
keeping `id` and `createdAt`. -/
theorem updateField_unknown_id
    (schema : FormSchema) (now fieldId : String) (patch : FieldPatch)
    (habs : ∀ f ∈ schema.fields, f.id ≠ fieldId) :
    (updateField schema now fieldId patch).fields = schema.fields
    ∧ (updateField schema now fieldId patch).updatedAt = now
    ∧ (updateField schema now fieldId patch).id = schema.id
    ∧ (updateField schema now fieldId patch).createdAt = schema.createdAt := by
  refine ⟨?_, rfl, rfl, rfl⟩
  show schema.fields.map
    (fun f => if f.id = fieldId then applyFieldPatch f patch else f) = schema.fields
  have h : ∀ f ∈ schema.fields,
      (if f.id = fieldId then applyFieldPatch f patch else f) = f :=
    fun f hf => if_neg (habs f hf)
  rw [List.map_congr_left h, List.map_id']

/-- Concrete field used by the C9 witness. -/
def c9Field : FieldSchema :=
  { id := "fx", name := "n", label := "N", type := FieldType.text,
    required := none, placeholder := none, min := none, max := none,
    pattern := none, options := none }

/-- Concrete schema used by the C9 witness. -/
def c9Schema : FormSchema :=
  { id := "s9", name := "Form", description := none,
    layout := FormLayout.singleColumn, fields := [c9Field],
    createdAt := "t0", updatedAt := "t0" }

/-- C9 witness: patching the unknown id "zzz" changes no field and
refreshes `updatedAt`. -/
theorem updateField_unknown_id_witness :
    (∀ f ∈ c9Schema.fields, f.id ≠ "zzz") ∧
    ((updateField c9Schema "t1" "zzz" { label := some "New" }).fields = c9Schema.fields
    ∧ (updateField c9Schema "t1" "zzz" { label := some "New" }).updatedAt = "t1"
    ∧ (updateField c9Schema "t1" "zzz" { label := some "New" }).id = c9Schema.id
    ∧ (updateField c9Schema "t1" "zzz" { label := some "New" }).createdAt = c9Schema.createdAt) :=
  ⟨by decide,
    updateField_unknown_id c9Schema "t1" "zzz" { label := some "New" } (by decide)⟩
